import Mathlib

/-!
Verification of the Kafka-wire-protocol server (codecrafters-kafka-rust).

This file is a shallow embedding, in Lean 4, of the parts of the Rust
source that the checked claims are about:

* the decode framework of src/decode.rs (cursor over a byte buffer,
  Incomplete versus fatal decode errors, panics modelled explicitly),
* the primitive and composite codec of src/common_struct.rs
  (VarInt with zig-zag, Array, CompactArray, CompactString, TagBuffer,
  RecordValue with its opaque Unknown arm),
* the request side of src/request_message.rs and the connection parser
  of src/connection.rs,
* the ApiVersions handler of src/api_versions.rs and the
  DescribeTopicPartitions handler of src/describe_topic_partitions.rs,
  together with the response-message framing of src/response_message.rs.

Bytes are modelled as natural numbers (well-formed buffers carry values
below 256; theorems that need this state it as a hypothesis).  Rust u64
arithmetic is modelled on Nat with explicit reduction modulo 2^64, and
the signed machine integers i8/i16/i32/i64 are modelled as Int with
explicit two's-complement conversions.  Strings are kept as their UTF-8
byte lists; Rust's String::from_utf8 validity check is modelled by an
explicit UTF-8 validator.  A Rust panic (assert!, unimplemented!,
capacity overflow) is a distinct outcome of a decoder, separate from
the DecodeError values the Rust code can return.
-/

namespace Kafka

/-- The two constructors of DecodeError in src/decode.rs: Incomplete
(stream ended early, recoverable) and Other (fatal).  The error payloads
(boxed messages) carry no information the claims depend on and are
dropped. -/
inductive DecErr : Type where
  | incomplete : DecErr
  | other : DecErr
  deriving DecidableEq

/-- Outcome of running a decoder: a value together with the new cursor
position, a returned decode error, or a Rust panic. -/
inductive DecRes (α : Type) : Type where
  | ok : α → Nat → DecRes α
  | err : DecErr → DecRes α
  | panicked : DecRes α
  deriving DecidableEq

/-- A decoder reads from an immutable byte buffer at a cursor position,
mirroring Decode::decode over std::io::Cursor. -/
abbrev DecM (α : Type) : Type := List Nat → Nat → DecRes α

instance : Monad DecM where
  pure a := fun _ pos => .ok a pos
  bind m f := fun buf pos =>
    match m buf pos with
    | .ok a p => f a buf p
    | .err e => .err e
    | .panicked => .panicked

/-- Models unimplemented! and other unconditional panics. -/
def panicM {α : Type} : DecM α := fun _ _ => .panicked

/-- Models a failing assert! in a decoder. -/
def assertM (b : Prop) [Decidable b] : DecM Unit :=
  fun _ pos => if b then .ok () pos else .panicked

end Kafka

namespace Kafka

/-- Remaining bytes of the cursor, as in bytes::Buf::remaining. -/
def remaining (buf : List Nat) (pos : Nat) : Nat := buf.length - pos

/-- u8::decode (src/decode.rs): one byte, Incomplete if none remain. -/
def decU8 : DecM Nat := fun buf pos =>
  if remaining buf pos < 1 then .err .incomplete
  else .ok (buf.getD pos 0) (pos + 1)

/-- u16::decode: two bytes big endian. -/
def decU16 : DecM Nat := fun buf pos =>
  if remaining buf pos < 2 then .err .incomplete
  else .ok (256 * buf.getD pos 0 + buf.getD (pos + 1) 0) (pos + 2)

/-- u32::decode: four bytes big endian. -/
def decU32 : DecM Nat := fun buf pos =>
  if remaining buf pos < 4 then .err .incomplete
  else .ok (2 ^ 24 * buf.getD pos 0 + 2 ^ 16 * buf.getD (pos + 1) 0
      + 2 ^ 8 * buf.getD (pos + 2) 0 + buf.getD (pos + 3) 0) (pos + 4)

/-- Two's-complement reading of an unsigned w-bit value. -/
def toSigned (w : Nat) (u : Nat) : Int :=
  if u % 2 ^ w < 2 ^ (w - 1) then (u % 2 ^ w : Int) else (u % 2 ^ w : Int) - 2 ^ w

/-- i8::decode. -/
def decI8 : DecM Int := fun buf pos =>
  if remaining buf pos < 1 then .err .incomplete
  else .ok (toSigned 8 (buf.getD pos 0)) (pos + 1)

/-- i16::decode: two bytes big endian, two's complement. -/
def decI16 : DecM Int := fun buf pos =>
  if remaining buf pos < 2 then .err .incomplete
  else .ok (toSigned 16 (256 * buf.getD pos 0 + buf.getD (pos + 1) 0)) (pos + 2)

/-- i32::decode: four bytes big endian, two's complement. -/
def decI32 : DecM Int := fun buf pos =>
  if remaining buf pos < 4 then .err .incomplete
  else .ok (toSigned 32 (2 ^ 24 * buf.getD pos 0 + 2 ^ 16 * buf.getD (pos + 1) 0
      + 2 ^ 8 * buf.getD (pos + 2) 0 + buf.getD (pos + 3) 0)) (pos + 4)

/-- Read::read_exact on the cursor: take n bytes or fail; the resulting
io::Error converts to DecodeError::Incomplete (src/decode.rs). -/
def readExact (n : Nat) : DecM (List Nat) := fun buf pos =>
  if remaining buf pos < n then .err .incomplete
  else .ok ((buf.drop pos).take n) (pos + n)

/-- Big-endian bytes of an unsigned 16-bit value (u16::to_be_bytes). -/
def u16be (n : Nat) : List Nat := [n / 2 ^ 8 % 256, n % 256]

/-- Big-endian bytes of an unsigned 32-bit value (u32::to_be_bytes). -/
def u32be (n : Nat) : List Nat :=
  [n / 2 ^ 24 % 256, n / 2 ^ 16 % 256, n / 2 ^ 8 % 256, n % 256]

/-- Unsigned 2^w-residue of a signed value (two's-complement cast). -/
def toU (w : Nat) (n : Int) : Nat := (n % (2 ^ w : Int)).toNat

/-- i16::to_be_bytes. -/
def i16be (n : Int) : List Nat := u16be (toU 16 n)

/-- i32::to_be_bytes. -/
def i32be (n : Int) : List Nat := u32be (toU 32 n)

end Kafka

namespace Kafka

/-- VarInt (src/common_struct.rs): a stored little-endian base-128 byte
sequence; the struct holds the raw bytes. -/
structure VarInt : Type where
  bytes : List Nat
  deriving DecidableEq

/-- zigzag_encode_64bit: ((n << 1) ^ (n >> 63)) as u64.  The i64 shifts
are modelled on Int: n << 1 wraps into the 64-bit pattern (taken by the
final cast toU 64), and the arithmetic right shift n >> 63 is floor
division by 2^63.  The i64 xor acts on the two's-complement patterns. -/
def zigzag_encode_64bit (n : Int) : Nat :=
  toU 64 (n * 2) ^^^ toU 64 (n / 2 ^ 63)

/-- Signed reading of an unsigned 64-bit pattern (the final i64 cast of
zigzag_decode_64bit). -/
def ofU64 (u : Nat) : Int :=
  if u % 2 ^ 64 < 2 ^ 63 then (u % 2 ^ 64 : Int) else (u % 2 ^ 64 : Int) - 2 ^ 64

/-- zigzag_decode_64bit: ((n >> 1) as i64) ^ (-((n & 0x01) as i64)).
The logical u64 shift is division by two; the xor acts on the 64-bit
two's-complement patterns of the two i64 operands. -/
def zigzag_decode_64bit (u : Nat) : Int :=
  ofU64 ((u / 2) ^^^ toU 64 (-((u % 2 : Nat) : Int)))

/-- The byte-building loop of VarInt::from_u64.  Each step emits the low
seven bits (`n as u8 & VARINTS_MASK`, that is n % 2^8 &&& 0x7f), with the
continuation bit 0x80 or-ed in while more payload remains, then shifts
the payload right by seven bits. -/
def fromU64Bytes (n : Nat) : List Nat :=
  if n / 2 ^ 7 = 0 then [n % 2 ^ 8 &&& 0x7f]
  else (n % 2 ^ 8 &&& 0x7f ||| 0x80) :: fromU64Bytes (n / 2 ^ 7)
termination_by n
decreasing_by
  exact Nat.div_lt_self (Nat.pos_of_ne_zero (by intro h; simp [h] at *)) (by omega)

/-- VarInt::from_u64. -/
def VarInt.from_u64 (n : Nat) : VarInt := ⟨fromU64Bytes n⟩

/-- VarInt::from_i64: zig-zag then from_u64. -/
def VarInt.from_i64 (n : Int) : VarInt := VarInt.from_u64 (zigzag_encode_64bit n)

/-- VarInt::as_u64: fold over the bytes in reverse, accumulating seven
payload bits per byte; the u64 shift-or wraps modulo 2^64. -/
def VarInt.as_u64 (v : VarInt) : Nat :=
  v.bytes.foldr (fun byte n => (n <<< 7) % 2 ^ 64 ||| (byte &&& 0x7f)) 0

/-- VarInt::as_i64. -/
def VarInt.as_i64 (v : VarInt) : Int := zigzag_decode_64bit v.as_u64

/-- Encode for VarInt: the stored bytes. -/
def VarInt.encode (v : VarInt) : List Nat := v.bytes

/-- The read loop of Decode for VarInt: keep reading u8 while the
continuation bit (byte >> 7 == 1) is set, then push the final byte.
The loop walks the bytes remaining under the cursor; running out of
bytes is u8::decode returning Incomplete. -/
def varIntLoop : List Nat → List Nat → Option (List Nat)
  | [], _ => none
  | byte :: rest, acc =>
    if byte >>> 7 = 1 then varIntLoop rest (acc ++ [byte])
    else some (acc ++ [byte])

/-- Decode for VarInt (src/common_struct.rs): the cursor advances by one
position per byte read, i.e. by the length of the collected bytes. -/
def VarInt.decode : DecM VarInt := fun buf pos =>
  match varIntLoop (buf.drop pos) [] with
  | none => .err .incomplete
  | some bytes => .ok ⟨bytes⟩ (pos + bytes.length)

end Kafka

namespace Kafka

/-- Masking with 0x7f is reduction modulo 128. -/
theorem and_x7f (x : Nat) : x &&& 0x7f = x % 128 := by
  have := Nat.and_pow_two_sub_one_eq_mod x 7
  norm_num at this
  exact this

/-- Shifting right by seven is division by 128. -/
theorem shiftRight_seven (x : Nat) : x >>> 7 = x / 128 := by
  rw [Nat.shiftRight_eq_div_pow]

/-- Or-ing the continuation bit into a seven-bit payload adds 128. -/
theorem or_x80 (x : Nat) (h : x < 128) : x ||| 0x80 = x + 128 := by
  have h2 : (2 : Nat) ^ 7 * 1 + x = 2 ^ 7 * 1 ||| x := Nat.mul_add_lt_is_or (by omega) 1
  norm_num at h2
  rw [Nat.lor_comm]
  omega

/-- Arithmetic characterization of a fromU64Bytes step. -/
theorem fromU64Bytes_eq (n : Nat) : fromU64Bytes n =
    if n / 128 = 0 then [n % 128] else (n % 128 + 128) :: fromU64Bytes (n / 128) := by
  rw [fromU64Bytes]
  have hm : n % 2 ^ 8 &&& 0x7f = n % 128 := by
    rw [and_x7f]
    norm_num [Nat.mod_mod_of_dvd n (by norm_num : (128 : Nat) ∣ 256)]
  rw [hm]
  norm_num [or_x80 (n % 128) (Nat.mod_lt n (by norm_num))]

/-- Arithmetic characterization of an as_u64 fold step. -/
theorem as_u64_cons (b : Nat) (l : List Nat) :
    VarInt.as_u64 ⟨b :: l⟩ = VarInt.as_u64 ⟨l⟩ * 128 % 2 ^ 64 + b % 128 := by
  have h0 : VarInt.as_u64 ⟨b :: l⟩
      = (VarInt.as_u64 ⟨l⟩ <<< 7) % 2 ^ 64 ||| (b &&& 0x7f) := rfl
  rw [h0, and_x7f, Nat.shiftLeft_eq]
  have h27 : (2 : Nat) ^ 7 = 128 := by norm_num
  rw [h27]
  have hdvd : (128 : Nat) ∣ VarInt.as_u64 ⟨l⟩ * 128 % 2 ^ 64 :=
    (Nat.dvd_mod_iff (by norm_num)).mpr ⟨VarInt.as_u64 ⟨l⟩, by ring⟩
  obtain ⟨q, hq⟩ := hdvd
  rw [hq]
  have h2 : (2 : Nat) ^ 7 * q + b % 128 = 2 ^ 7 * q ||| b % 128 :=
    Nat.mul_add_lt_is_or (by omega) q
  rw [h27] at h2
  omega

/-- The bits emitted by VarInt::from_u64 decode back, through
VarInt::as_u64, to the encoded value (for u64-range inputs). -/
theorem as_u64_from_u64 : ∀ n : Nat, n < 2 ^ 64 → VarInt.as_u64 ⟨fromU64Bytes n⟩ = n := by
  intro n
  induction n using Nat.strong_induction_on with
  | _ n ih =>
    intro h
    rw [fromU64Bytes_eq]
    by_cases h7 : n / 128 = 0
    · rw [if_pos h7, as_u64_cons]
      have : VarInt.as_u64 ⟨[]⟩ = 0 := rfl
      rw [this]
      omega
    · rw [if_neg h7, as_u64_cons]
      have hlt : n / 128 < n := Nat.div_lt_self (by omega) (by norm_num)
      rw [ih (n / 128) hlt (by omega)]
      have : n / 128 * 128 % 2 ^ 64 = n / 128 * 128 := by
        rw [Nat.mod_eq_of_lt]
        have := Nat.div_mul_le_self n 128
        omega
      rw [this]
      omega

/-- Xor with an all-ones mask is complement within the mask width. -/
theorem xor_two_pow_sub_one (w : Nat) : ∀ a : Nat, a < 2 ^ w → a ^^^ (2 ^ w - 1) = 2 ^ w - 1 - a := by
  induction w with
  | zero =>
    intro a h
    have : a = 0 := by omega
    subst this
    decide
  | succ w ih =>
    intro a h
    have hp : 2 ^ (w + 1) = 2 * 2 ^ w := by rw [Nat.pow_succ]; ring
    have hpw : 0 < 2 ^ w := Nat.pos_pow_of_pos _ (by norm_num)
    have hmdiv : (2 ^ (w + 1) - 1) / 2 = 2 ^ w - 1 := by omega
    have ha2 : a / 2 < 2 ^ w := by omega
    have hdiv : (a ^^^ (2 ^ (w + 1) - 1)) / 2 = 2 ^ w - 1 - a / 2 := by
      rw [Nat.xor_div_two, hmdiv, ih (a / 2) ha2]
    have hm2 : (2 ^ (w + 1) - 1) % 2 = 1 := by omega
    have hmod : (a ^^^ (2 ^ (w + 1) - 1)) % 2 = 1 - a % 2 := by
      rcases Nat.mod_two_eq_zero_or_one a with h0 | h1
      · have hx : (a ^^^ (2 ^ (w + 1) - 1)) % 2 = 1 := by
          rw [Nat.xor_mod_two_eq_one]
          simp [h0, hm2]
        omega
      · have hne : ¬ (a ^^^ (2 ^ (w + 1) - 1)) % 2 = 1 := by
          rw [Nat.xor_mod_two_eq_one]
          simp [h1, hm2]
        have := Nat.mod_two_eq_zero_or_one (a ^^^ (2 ^ (w + 1) - 1))
        omega
    omega

/-- toU lands in the unsigned w-bit range. -/
theorem toU_lt (w : Nat) (n : Int) : toU w n < 2 ^ w := by
  unfold toU
  have hcast : ((2 ^ w : Nat) : Int) = (2 : Int) ^ w := by push_cast; ring
  have hpos : (0 : Int) < 2 ^ w := by positivity
  have h1 := Int.emod_nonneg n (ne_of_gt hpos)
  have h2 := Int.emod_lt_of_pos n hpos
  omega

/-- Zig-zag decode inverts zig-zag encode on the i64 range. -/
theorem zigzag_roundtrip (n : Int) (h1 : -2 ^ 63 ≤ n) (h2 : n < 2 ^ 63) :
    zigzag_decode_64bit (zigzag_encode_64bit n) = n := by
  rcases le_or_lt 0 n with hn | hn
  · have henc2 : toU 64 (n * 2) = 2 * n.toNat := by
      unfold toU
      rw [Int.emod_eq_of_lt (by omega) (by omega)]
      omega
    have hdiv0 : n / 2 ^ 63 = 0 := Int.ediv_eq_zero_of_lt hn (by omega)
    have henc : zigzag_encode_64bit n = 2 * n.toNat := by
      unfold zigzag_encode_64bit
      rw [henc2, hdiv0]
      simp [toU]
    rw [henc]
    unfold zigzag_decode_64bit
    have hm2 : 2 * n.toNat % 2 = 0 := by omega
    have hd2 : 2 * n.toNat / 2 = n.toNat := by omega
    rw [hm2, hd2]
    have hz : toU 64 (-((0 : Nat) : Int)) = 0 := by simp [toU]
    rw [hz, Nat.xor_zero]
    unfold ofU64
    rw [Nat.mod_eq_of_lt (by omega), if_pos (by omega)]
    omega
  · have hm1 : 1 ≤ (-n).toNat := by omega
    have hm2 : (-n).toNat ≤ 2 ^ 63 := by omega
    set m : Nat := (-n).toNat with hm
    have hnm : n = -(m : Int) := by omega
    have henc2 : toU 64 (n * 2) = 2 ^ 64 - 2 * m := by
      unfold toU
      have hx : n * 2 % 2 ^ 64 = n * 2 + 2 ^ 64 := by omega
      rw [hx]
      omega
    have hdivm1 : n / 2 ^ 63 = -1 := by omega
    have hmask : toU 64 (-1 : Int) = 2 ^ 64 - 1 := by
      unfold toU
      decide
    have henc : zigzag_encode_64bit n = 2 * m - 1 := by
      unfold zigzag_encode_64bit
      rw [henc2, hdivm1, hmask]
      rw [xor_two_pow_sub_one 64 _ (by omega)]
      omega
    rw [henc]
    unfold zigzag_decode_64bit
    have hu2 : (2 * m - 1) % 2 = 1 := by omega
    have hd2 : (2 * m - 1) / 2 = m - 1 := by omega
    rw [hu2, hd2]
    have hneg1 : toU 64 (-((1 : Nat) : Int)) = 2 ^ 64 - 1 := by
      unfold toU
      decide
    rw [hneg1]
    rw [xor_two_pow_sub_one 64 _ (by omega)]
    unfold ofU64
    rw [Nat.mod_eq_of_lt (by omega), if_neg (by omega)]
    omega

/-- VarInt built by from_u64 reads back through as_u64 (u64 range). -/
theorem from_u64_as_u64 (n : Nat) (h : n < 2 ^ 64) : (VarInt.from_u64 n).as_u64 = n :=
  as_u64_from_u64 n h

/-- VarInt built by from_i64 reads back through as_i64 (i64 range). -/
theorem from_i64_as_i64 (n : Int) (h1 : -2 ^ 63 ≤ n) (h2 : n < 2 ^ 63) :
    (VarInt.from_i64 n).as_i64 = n := by
  unfold VarInt.from_i64 VarInt.as_i64
  have henc : zigzag_encode_64bit n < 2 ^ 64 :=
    Nat.xor_lt_two_pow (toU_lt 64 _) (toU_lt 64 _)
  rw [from_u64_as_u64 _ henc]
  exact zigzag_roundtrip n h1 h2

end Kafka

namespace Kafka

/-- The decode loop consumes exactly the continuation bytes plus the
terminating byte, whatever follows. -/
theorem varIntLoop_spec : ∀ (c : List Nat) (t : Nat) (rest acc : List Nat),
    (∀ b ∈ c, b >>> 7 = 1) → ¬ t >>> 7 = 1 →
    varIntLoop (c ++ t :: rest) acc = some (acc ++ (c ++ [t])) := by
  intro c
  induction c with
  | nil =>
    intro t rest acc _ ht
    simp [varIntLoop, ht]
  | cons b c ih =>
    intro t rest acc hc ht
    have hb : b >>> 7 = 1 := hc b (by simp)
    have hc2 : ∀ x ∈ c, x >>> 7 = 1 := fun x hx => hc x (by simp [hx])
    simp only [List.cons_append, varIntLoop, hb, if_pos, List.append_eq]
    rw [ih t rest (acc ++ [b]) hc2 ht]
    simp

/-- VarInt::decode on a well-formed varint consumes exactly its bytes. -/
theorem varIntDecode_spec (buf : List Nat) (pos : Nat) (c : List Nat) (t : Nat)
    (rest : List Nat) (hbuf : buf.drop pos = c ++ t :: rest)
    (hc : ∀ b ∈ c, b >>> 7 = 1) (ht : ¬ t >>> 7 = 1) :
    VarInt.decode buf pos = .ok ⟨c ++ [t]⟩ (pos + (c.length + 1)) := by
  unfold VarInt.decode
  rw [hbuf, varIntLoop_spec c t rest [] hc ht]
  simp

/-- Every byte sequence emitted by from_u64 consists of continuation
bytes followed by one terminating byte. -/
theorem fromU64Bytes_shape : ∀ n : Nat, ∃ c t, fromU64Bytes n = c ++ [t]
    ∧ (∀ b ∈ c, b >>> 7 = 1) ∧ ¬ t >>> 7 = 1 := by
  intro n
  induction n using Nat.strong_induction_on with
  | _ n ih =>
    rw [fromU64Bytes_eq]
    by_cases h7 : n / 128 = 0
    · refine ⟨[], n % 128, by simp [h7], by simp, ?_⟩
      rw [shiftRight_seven]
      omega
    · obtain ⟨c, t, heq, hc, ht⟩ := ih (n / 128) (Nat.div_lt_self (by omega) (by norm_num))
      refine ⟨(n % 128 + 128) :: c, t, by simp [h7, heq], ?_, ht⟩
      intro b hb
      rcases List.mem_cons.mp hb with hb | hb
      · subst hb
        rw [shiftRight_seven]
        omega
      · exact hc b hb

/-- VarInt::decode consumes exactly the canonical encoding of n when the
buffer starts with it (at the cursor), leaving the remainder alone. -/
theorem varIntDecode_fromU64 (n : Nat) (buf : List Nat) (pos : Nat) (rest : List Nat)
    (hbuf : buf.drop pos = fromU64Bytes n ++ rest) :
    VarInt.decode buf pos = .ok ⟨fromU64Bytes n⟩ (pos + (fromU64Bytes n).length) := by
  obtain ⟨c, t, heq, hc, ht⟩ := fromU64Bytes_shape n
  rw [heq] at hbuf ⊢
  simp only [List.append_assoc, List.cons_append, List.nil_append] at hbuf
  rw [varIntDecode_spec buf pos c t rest hbuf hc ht]
  simp

end Kafka

namespace Kafka

/-- Models the validity check of Rust String::from_utf8 (standard
UTF-8: no overlong forms, no surrogates, max U+10FFFF), as a state
machine: the first argument counts continuation bytes still expected,
the next two give the allowed range of the next continuation byte. -/
def utf8Fold : Nat → Nat → Nat → List Nat → Bool
  | 0, _, _, [] => true
  | 0, _, _, b :: rest =>
    if b ≤ 0x7F then utf8Fold 0 0 0 rest
    else if b < 0xC2 then false
    else if b ≤ 0xDF then utf8Fold 1 0x80 0xBF rest
    else if b = 0xE0 then utf8Fold 2 0xA0 0xBF rest
    else if b = 0xED then utf8Fold 2 0x80 0x9F rest
    else if b ≤ 0xEF then utf8Fold 2 0x80 0xBF rest
    else if b = 0xF0 then utf8Fold 3 0x90 0xBF rest
    else if b ≤ 0xF3 then utf8Fold 3 0x80 0xBF rest
    else if b = 0xF4 then utf8Fold 3 0x80 0x8F rest
    else false
  | _ + 1, _, _, [] => false
  | k + 1, lo, hi, b :: rest =>
    if lo ≤ b ∧ b ≤ hi then utf8Fold k 0x80 0xBF rest else false

/-- A byte list is valid UTF-8 when the state machine accepts it from
the initial state. -/
def isValidUtf8 (l : List Nat) : Bool := utf8Fold 0 0 0 l

/-- String::from_utf8 applied to freshly read bytes: the string value is
its UTF-8 byte list; an invalid sequence is a FromUtf8Error, which
converts to DecodeError::Other (src/decode.rs). -/
def fromUtf8 (s : List Nat) : DecM (List Nat) := fun _ pos =>
  if isValidUtf8 s then .ok s pos else .err .other

end Kafka

namespace Kafka

/-- CompactString (src/common_struct.rs): a non-null string, stored here
as its UTF-8 bytes. -/
structure CompactString : Type where
  inner : List Nat
  deriving DecidableEq

/-- Encode for CompactString: unsigned-varint (length + 1) prefix, then
the bytes. -/
def CompactString.encode (s : CompactString) : List Nat :=
  (VarInt.from_u64 (s.inner.length + 1)).bytes ++ s.inner

/-- Decode for CompactString: read the varint length; assert! that it is
positive (a zero length panics); read length - 1 bytes; validate UTF-8. -/
def CompactString.decode : DecM CompactString := do
  let v ← VarInt.decode
  let length := v.as_u64
  if length > 0 then
    let bytes ← readExact (length - 1)
    let s ← fromUtf8 bytes
    pure ⟨s⟩
  else
    fun _ _ => .panicked

/-- Array (src/common_struct.rs): nullable, INT32-count-prefixed. -/
structure Array (α : Type) : Type where
  inner : Option (List α)
  deriving DecidableEq

/-- CompactArray (src/common_struct.rs): nullable, UVARINT count+1. -/
structure CompactArray (α : Type) : Type where
  inner : Option (List α)
  deriving DecidableEq

/-- Array::new(None), the Default instance. -/
def Array.null {α : Type} : Array α := ⟨none⟩

/-- Array::empty(). -/
def Array.empty {α : Type} : Array α := ⟨some []⟩

/-- CompactArray::new(None), the Default instance. -/
def CompactArray.null {α : Type} : CompactArray α := ⟨none⟩

/-- CompactArray::empty(). -/
def CompactArray.empty {α : Type} : CompactArray α := ⟨some []⟩

/-- Encode for Array<T>: null is FF FF FF FF; otherwise the i32 length
(panicking when it does not fit an i32) then the elements.  The panic
branch is modelled by the Option result. -/
def Array.encode {α : Type} (encT : α → List Nat) (a : Array α) : Option (List Nat) :=
  match a.inner with
  | none => some [0xff, 0xff, 0xff, 0xff]
  | some l =>
    if l.length ≥ 2 ^ 31 - 1 then none
    else some (i32be l.length ++ l.flatMap encT)

/-- Decode n successive elements (the for-loop of the array decoders). -/
def decodeN {α : Type} (decT : DecM α) : Nat → DecM (List α)
  | 0 => pure []
  | n + 1 => do
    let item ← decT
    let rest ← decodeN decT n
    pure (item :: rest)

/-- Decode for Array<T>: i32 length, None when negative, else that many
elements. -/
def Array.decode {α : Type} (decT : DecM α) : DecM (Array α) := do
  let length ← decI32
  if length ≥ 0 then
    let l ← decodeN decT length.toNat
    pure ⟨some l⟩
  else
    pure ⟨none⟩

/-- Encode for CompactArray<T>: null is 00, else varint (count + 1) then
the elements. -/
def CompactArray.encode {α : Type} (encT : α → List Nat) (a : CompactArray α) : List Nat :=
  match a.inner with
  | none => [0x00]
  | some l => (VarInt.from_u64 (l.length + 1)).bytes ++ l.flatMap encT

/-- Decode for CompactArray<T>: varint count, None when 0, else count - 1
elements. -/
def CompactArray.decode {α : Type} (decT : DecM α) : DecM (CompactArray α) := do
  let v ← VarInt.decode
  let length := v.as_u64
  if length > 0 then
    let l ← decodeN decT (length - 1)
    pure ⟨some l⟩
  else
    pure ⟨none⟩

/-- TagSection (src/common_struct.rs): u8 tag and compact byte array. -/
structure TagSection : Type where
  tag : Nat
  data : CompactArray Nat
  deriving DecidableEq

/-- TagBuffer: a compact array of tag sections. -/
structure TagBuffer : Type where
  fields : CompactArray TagSection
  deriving DecidableEq

/-- u8 encode (to_be_bytes of a byte). -/
def u8enc (n : Nat) : List Nat := [n % 256]

/-- Derived Encode for TagSection: tag then data, in field order. -/
def TagSection.encode (t : TagSection) : List Nat :=
  u8enc t.tag ++ t.data.encode u8enc

/-- Derived Decode for TagSection. -/
def TagSection.decode : DecM TagSection := do
  let tag ← decU8
  let data ← CompactArray.decode decU8
  pure ⟨tag, data⟩

/-- Derived Encode for TagBuffer. -/
def TagBuffer.encode (t : TagBuffer) : List Nat :=
  t.fields.encode TagSection.encode

/-- Derived Decode for TagBuffer. -/
def TagBuffer.decode : DecM TagBuffer := do
  let fields ← CompactArray.decode TagSection.decode
  pure ⟨fields⟩

/-- TagBuffer::default(): fields = CompactArray::new(None).  This is the
same value as TagBuffer::new(None) used elsewhere in the source. -/
def TagBuffer.defaultV : TagBuffer := ⟨CompactArray.null⟩

end Kafka

namespace Kafka

/-- Modelled from the spec: the Decode/Encode impls for uuid::Uuid are
not in src/ (the crate's orphan-rule impl file is missing from the
snapshot); the spec defines UUID as 16 raw bytes (section 3). -/
structure Uuid : Type where
  bytes : List Nat
  deriving DecidableEq

/-- Modelled from the spec: UUID decode reads 16 raw bytes. -/
def Uuid.decode : DecM Uuid := do
  let bytes ← readExact 16
  pure ⟨bytes⟩

/-- Modelled from the spec: UUID encode emits the 16 raw bytes. -/
def Uuid.encode (u : Uuid) : List Nat := u.bytes

/-- Uuid::nil() of the uuid crate: the all-zero UUID
00000000-0000-0000-0000-000000000000. -/
def Uuid.nil : Uuid := ⟨List.replicate 16 0⟩

/-- RepicaNode (src/describe_topic_partitions.rs): a single i32 id. -/
structure RepicaNode : Type where
  id : Int
  deriving DecidableEq

/-- Derived Encode for RepicaNode. -/
def RepicaNode.encode (r : RepicaNode) : List Nat := i32be r.id

/-- Derived Decode for RepicaNode. -/
def RepicaNode.decode : DecM RepicaNode := do
  let id ← decI32
  pure ⟨id⟩

/-- Directory (src/common_struct.rs): a single UUID. -/
structure Directory : Type where
  id : Uuid
  deriving DecidableEq

/-- Derived Encode for Directory. -/
def Directory.encode (d : Directory) : List Nat := d.id.encode

/-- Derived Decode for Directory. -/
def Directory.decode : DecM Directory := do
  let id ← Uuid.decode
  pure ⟨id⟩

/-- TopicRecord (src/common_struct.rs). -/
structure TopicRecord : Type where
  frame_version : Int
  record_type : Int
  version : Int
  name : CompactString
  id : Uuid
  tag_buffers : TagBuffer
  deriving DecidableEq

/-- Derived Encode for TopicRecord: fields in order. -/
def TopicRecord.encode (t : TopicRecord) : List Nat :=
  u8enc (toU 8 t.frame_version) ++ u8enc (toU 8 t.record_type) ++ u8enc (toU 8 t.version)
    ++ t.name.encode ++ t.id.encode ++ t.tag_buffers.encode

/-- Derived Decode for TopicRecord: fields in order. -/
def TopicRecord.decode : DecM TopicRecord := do
  let frame_version ← decI8
  let record_type ← decI8
  let version ← decI8
  let name ← CompactString.decode
  let id ← Uuid.decode
  let tag_buffers ← TagBuffer.decode
  pure ⟨frame_version, record_type, version, name, id, tag_buffers⟩

/-- ParitionRecord (src/common_struct.rs), source spelling kept. -/
structure ParitionRecord : Type where
  frame_version : Int
  record_type : Int
  version : Int
  parition_id : Int
  topic_id : Uuid
  replica_nodes : CompactArray RepicaNode
  isr_nodes : CompactArray RepicaNode
  removing_replicas_nodes : CompactArray RepicaNode
  adding_replicas_nodes : CompactArray RepicaNode
  leader_id : Int
  leader_epoch : Int
  partition_epoch : Int
  directories : CompactArray Directory
  tag_buffers : TagBuffer
  deriving DecidableEq

/-- Derived Encode for ParitionRecord: fields in order. -/
def ParitionRecord.encode (p : ParitionRecord) : List Nat :=
  u8enc (toU 8 p.frame_version) ++ u8enc (toU 8 p.record_type) ++ u8enc (toU 8 p.version)
    ++ i32be p.parition_id ++ p.topic_id.encode
    ++ p.replica_nodes.encode RepicaNode.encode
    ++ p.isr_nodes.encode RepicaNode.encode
    ++ p.removing_replicas_nodes.encode RepicaNode.encode
    ++ p.adding_replicas_nodes.encode RepicaNode.encode
    ++ i32be p.leader_id ++ i32be p.leader_epoch ++ i32be p.partition_epoch
    ++ p.directories.encode Directory.encode ++ p.tag_buffers.encode

/-- Derived Decode for ParitionRecord: fields in order. -/
def ParitionRecord.decode : DecM ParitionRecord := do
  let frame_version ← decI8
  let record_type ← decI8
  let version ← decI8
  let parition_id ← decI32
  let topic_id ← Uuid.decode
  let replica_nodes ← CompactArray.decode RepicaNode.decode
  let isr_nodes ← CompactArray.decode RepicaNode.decode
  let removing_replicas_nodes ← CompactArray.decode RepicaNode.decode
  let adding_replicas_nodes ← CompactArray.decode RepicaNode.decode
  let leader_id ← decI32
  let leader_epoch ← decI32
  let partition_epoch ← decI32
  let directories ← CompactArray.decode Directory.decode
  let tag_buffers ← TagBuffer.decode
  pure ⟨frame_version, record_type, version, parition_id, topic_id, replica_nodes,
    isr_nodes, removing_replicas_nodes, adding_replicas_nodes, leader_id,
    leader_epoch, partition_epoch, directories, tag_buffers⟩

/-- FeatureLevelRecord (src/common_struct.rs). -/
structure FeatureLevelRecord : Type where
  frame_version : Int
  record_type : Int
  version : Int
  name : CompactString
  feature_level : Int
  tag_buffers : TagBuffer
  deriving DecidableEq

/-- Derived Encode for FeatureLevelRecord: fields in order. -/
def FeatureLevelRecord.encode (f : FeatureLevelRecord) : List Nat :=
  u8enc (toU 8 f.frame_version) ++ u8enc (toU 8 f.record_type) ++ u8enc (toU 8 f.version)
    ++ f.name.encode ++ i16be f.feature_level ++ f.tag_buffers.encode

/-- Derived Decode for FeatureLevelRecord: fields in order. -/
def FeatureLevelRecord.decode : DecM FeatureLevelRecord := do
  let frame_version ← decI8
  let record_type ← decI8
  let version ← decI8
  let name ← CompactString.decode
  let feature_level ← decI16
  let tag_buffers ← TagBuffer.decode
  pure ⟨frame_version, record_type, version, name, feature_level, tag_buffers⟩

/-- RecordValue (src/common_struct.rs): tagged variant with an opaque
Unknown arm carrying raw bytes. -/
inductive RecordValue : Type where
  | Topic : TopicRecord → RecordValue
  | Partition : ParitionRecord → RecordValue
  | FeatureLevel : FeatureLevelRecord → RecordValue
  | Unknown : List Nat → RecordValue
  deriving DecidableEq

/-- Encode for RecordValue: each known variant re-encodes its record and
prefixes the signed-varint byte length; Unknown re-emits the length
prefix followed by the stored bytes. -/
def RecordValue.encode : RecordValue → List Nat
  | .Topic record =>
    (VarInt.from_i64 (record.encode.length : Int)).bytes ++ record.encode
  | .Partition record =>
    (VarInt.from_i64 (record.encode.length : Int)).bytes ++ record.encode
  | .FeatureLevel record =>
    (VarInt.from_i64 (record.encode.length : Int)).bytes ++ record.encode
  | .Unknown record_encode =>
    (VarInt.from_i64 (record_encode.length : Int)).bytes ++ record_encode

/-- RecordType constants (src/common_struct.rs). -/
def RecordType.TOPIC_RECORD : Int := 0x02

/-- PARITION_RECORD constant, source spelling kept. -/
def RecordType.PARITION_RECORD : Int := 0x03

/-- FEATURE_LEVEL_RECORD constant. -/
def RecordType.FEATURE_LEVEL_RECORD : Int := 0x0c

/-- parse_known_record (src/common_struct.rs): dispatch on the peeked
record_type, erroring on unknown types without consuming input. -/
def parse_known_record (record_type : Int) : DecM RecordValue := fun buf pos =>
  if record_type = RecordType.TOPIC_RECORD then
    (do
      let r ← TopicRecord.decode
      pure (RecordValue.Topic r)) buf pos
  else if record_type = RecordType.PARITION_RECORD then
    (do
      let r ← ParitionRecord.decode
      pure (RecordValue.Partition r)) buf pos
  else if record_type = RecordType.FEATURE_LEVEL_RECORD then
    (do
      let r ← FeatureLevelRecord.decode
      pure (RecordValue.FeatureLevel r)) buf pos
  else .err .other

/-- Decode for RecordValue (src/common_struct.rs): read the signed
varint length, peek frame_version and record_type (two i8 reads), seek
back two bytes and remember the position; try the typed parser; on any
error reset to the remembered position and copy exactly length bytes
into the Unknown variant.  Rust builds the Unknown buffer with
vec![0x00; length as usize]: a negative length casts to a huge usize
whose allocation aborts, modelled as a panic. -/
def RecordValue.decode : DecM RecordValue := fun buf pos =>
  match VarInt.decode buf pos with
  | .err e => .err e
  | .panicked => .panicked
  | .ok value_length pos1 =>
    match decI8 buf pos1 with
    | .err e => .err e
    | .panicked => .panicked
    | .ok _frame_version pos2 =>
      match decI8 buf pos2 with
      | .err e => .err e
      | .panicked => .panicked
      | .ok record_type pos3 =>
        let position := pos3 - 2
        match parse_known_record record_type buf position with
        | .ok record_value p => .ok record_value p
        | .panicked => .panicked
        | .err _ =>
          if value_length.as_i64 < 0 then .panicked
          else
            match readExact value_length.as_i64.toNat buf position with
            | .ok record_encode p => .ok (RecordValue.Unknown record_encode) p
            | .err e => .err e
            | .panicked => .panicked

end Kafka

namespace Kafka

/-- HeaderClientId (src/request_message.rs): the id string, stored as
UTF-8 bytes. -/
structure HeaderClientId : Type where
  id : List Nat
  deriving DecidableEq

/-- Decode for HeaderClientId: u16 length prefix, then exactly that many
bytes, then UTF-8 validation.  The prefix is unsigned, so 0xFFFF is
length 65535, not a null marker. -/
def HeaderClientId.decode : DecM HeaderClientId := do
  let length ← decU16
  let string_buffer ← readExact length
  let id ← fromUtf8 string_buffer
  pure ⟨id⟩

/-- RequestHeaderV2 (src/request_message.rs). -/
structure RequestHeaderV2 : Type where
  request_api_key : Int
  request_api_version : Int
  correlation_id : Int
  client_id : HeaderClientId
  tag_buffer : TagBuffer
  deriving DecidableEq

/-- Derived Decode for RequestHeaderV2: fields in order. -/
def RequestHeaderV2.decode : DecM RequestHeaderV2 := do
  let request_api_key ← decI16
  let request_api_version ← decI16
  let correlation_id ← decI32
  let client_id ← HeaderClientId.decode
  let tag_buffer ← TagBuffer.decode
  pure ⟨request_api_key, request_api_version, correlation_id, client_id, tag_buffer⟩

/-- RequestHeader (src/request_message.rs): only V2 exists. -/
inductive RequestHeader : Type where
  | RequestHeaderV2 : RequestHeaderV2 → RequestHeader
  deriving DecidableEq

/-- RequestHeader::request_api_key. -/
def RequestHeader.request_api_key : RequestHeader → Int
  | .RequestHeaderV2 h => h.request_api_key

/-- The string decoder of decode.rs (impl Decode for String): u8 length
prefix, assert! it is positive (panicking on zero), then length - 1
bytes, then UTF-8 validation. -/
def decodeString : DecM (List Nat) := do
  let length ← decU8
  if length > 0 then
    let string_buffer ← readExact (length - 1)
    fromUtf8 string_buffer
  else
    fun _ _ => .panicked

/-- ApiVersionsV4ReqeustBody (src/request_message.rs), source spelling
kept: two strings (decoded with the u8-prefixed String decoder of
decode.rs) and a tag buffer. -/
structure ApiVersionsV4ReqeustBody : Type where
  client_id : List Nat
  client_software_version : List Nat
  tag_buffer : TagBuffer
  deriving DecidableEq

/-- Derived Decode for ApiVersionsV4ReqeustBody. -/
def ApiVersionsV4ReqeustBody.decode : DecM ApiVersionsV4ReqeustBody := do
  let client_id ← decodeString
  let client_software_version ← decodeString
  let tag_buffer ← TagBuffer.decode
  pure ⟨client_id, client_software_version, tag_buffer⟩

/-- RequestBody (src/request_message.rs): only the ApiVersions variant
exists in the decoder. -/
inductive RequestBody : Type where
  | ApiVersionsV4 : ApiVersionsV4ReqeustBody → RequestBody
  deriving DecidableEq

/-- RequestMessage (src/request_message.rs). -/
structure RequestMessage : Type where
  message_size : Nat
  header : RequestHeader
  body : RequestBody
  deriving DecidableEq

/-- Decode for RequestMessage: u32 message_size, V2 header, then the
body selected by api_key — only ApiVersions (18) is implemented,
anything else hits unimplemented! (a panic). -/
def RequestMessage.decode : DecM RequestMessage := do
  let message_size ← decU32
  let h ← RequestHeaderV2.decode
  let header := RequestHeader.RequestHeaderV2 h
  let body ←
    if header.request_api_key = 18 then do
      let b ← ApiVersionsV4ReqeustBody.decode
      pure (RequestBody.ApiVersionsV4 b)
    else
      panicM
  pure ⟨message_size, header, body⟩

/-- Outcome of Connection::parse_request as seen by its caller:
a parsed request, a need for more bytes (Ok(None)), a fatal decode
error (Err), or a panic. -/
inductive ParseRes : Type where
  | parsed : RequestMessage → ParseRes
  | needMore : ParseRes
  | failed : ParseRes
  | panicked : ParseRes
  deriving DecidableEq

/-- Connection::parse_request (src/connection.rs): speculatively decode
on a cursor over the buffered bytes; on success advance the buffer by
the cursor position; on Incomplete return Ok(None) leaving the buffer
untouched; other errors propagate with the buffer untouched.  Returns
the outcome together with the buffer contents after the call. -/
def Connection.parse_request (buffer : List Nat) : ParseRes × List Nat :=
  match RequestMessage.decode buffer 0 with
  | .ok request pos => (.parsed request, buffer.drop pos)
  | .err .incomplete => (.needMore, buffer)
  | .err .other => (.failed, buffer)
  | .panicked => (.panicked, buffer)

end Kafka

namespace Kafka

/-- ApiKey (src/api_versions.rs): an (api_key, min, max) entry with a
tag buffer. -/
structure ApiKey : Type where
  api_key : Int
  min_version : Int
  max_version : Int
  tag_buffer : TagBuffer
  deriving DecidableEq

/-- Derived Encode for ApiKey: three i16 fields then the tag buffer. -/
def ApiKey.encode (k : ApiKey) : List Nat :=
  i16be k.api_key ++ i16be k.min_version ++ i16be k.max_version ++ k.tag_buffer.encode

/-- API_VERSIONS_API_INFO (src/api_versions.rs): ApiKey::new(18, 0, 4). -/
def API_VERSIONS_API_INFO : ApiKey := ⟨18, 0, 4, TagBuffer.defaultV⟩

/-- FETCH_API_INFO (src/fetch.rs): ApiKey::new(1, 0, 16). -/
def FETCH_API_INFO : ApiKey := ⟨1, 0, 16, TagBuffer.defaultV⟩

/-- DESCRIBE_TOPIC_PARTITIONS_API_INFO (src/describe_topic_partitions.rs):
ApiKey::new(75, 0, 0). -/
def DESCRIBE_TOPIC_PARTITIONS_API_INFO : ApiKey := ⟨75, 0, 0, TagBuffer.defaultV⟩

/-- SUPPORT_APIS (src/api_versions.rs): the HashMap over the three
supported entries, given here as the list of its values.  HashMap
iteration order is unspecified in Rust; the handler sorts before use,
so any enumeration order yields the same response. -/
def SUPPORT_APIS : List ApiKey :=
  [FETCH_API_INFO, API_VERSIONS_API_INFO, DESCRIBE_TOPIC_PARTITIONS_API_INFO]

/-- Insertion step for the api_keys.sort() model. -/
def insertApiKey (a : ApiKey) : List ApiKey → List ApiKey
  | [] => [a]
  | b :: l => if a.api_key ≤ b.api_key then a :: b :: l else b :: insertApiKey a l

/-- Vec::sort on Vec<ApiKey> sorts by the Ord impl, which compares
api_key only; modelled as insertion sort. -/
def sortApiKeys : List ApiKey → List ApiKey
  | [] => []
  | a :: l => insertApiKey a (sortApiKeys l)

/-- UNSUPPORTED_VERSION_ERROR = 35 (src/api_versions.rs). -/
def UNSUPPORTED_VERSION_ERROR : Int := 35

/-- ApiVersionsResponseBodyV4 (src/api_versions.rs). -/
structure ApiVersionsResponseBodyV4 : Type where
  error_code : Int
  api_keys : CompactArray ApiKey
  throttle_time_ms : Int
  tag_buffer : TagBuffer
  deriving DecidableEq

/-- Derived Encode for ApiVersionsResponseBodyV4: fields in order. -/
def ApiVersionsResponseBodyV4.encode (b : ApiVersionsResponseBodyV4) : List Nat :=
  i16be b.error_code ++ b.api_keys.encode ApiKey.encode
    ++ i32be b.throttle_time_ms ++ b.tag_buffer.encode

/-- ResponseHeaderV0 (src/response_message.rs): correlation id only. -/
structure ResponseHeaderV0 : Type where
  correlation_id : Int
  deriving DecidableEq

/-- Derived Encode for ResponseHeaderV0: the i32 correlation id alone. -/
def ResponseHeaderV0.encode (h : ResponseHeaderV0) : List Nat := i32be h.correlation_id

/-- ResponseHeaderV1 (src/response_message.rs): correlation id and tag
buffer. -/
structure ResponseHeaderV1 : Type where
  correlation_id : Int
  tag_buffer : TagBuffer
  deriving DecidableEq

/-- Derived Encode for ResponseHeaderV1. -/
def ResponseHeaderV1.encode (h : ResponseHeaderV1) : List Nat :=
  i32be h.correlation_id ++ h.tag_buffer.encode

/-- ResponseHeader (src/response_message.rs). -/
inductive ResponseHeader : Type where
  | ResponseHeaderV0 : ResponseHeaderV0 → ResponseHeader
  | ResponseHeaderV1 : ResponseHeaderV1 → ResponseHeader
  deriving DecidableEq

/-- ResponseHeader::new_v0. -/
def ResponseHeader.new_v0 (correlation_id : Int) : ResponseHeader :=
  .ResponseHeaderV0 ⟨correlation_id⟩

/-- ResponseHeader::new_v1: the tag buffer is TagBuffer::new(None). -/
def ResponseHeader.new_v1 (correlation_id : Int) : ResponseHeader :=
  .ResponseHeaderV1 ⟨correlation_id, ⟨CompactArray.null⟩⟩

/-- Encode for ResponseHeader: dispatch to the variant. -/
def ResponseHeader.encode : ResponseHeader → List Nat
  | .ResponseHeaderV0 h => h.encode
  | .ResponseHeaderV1 h => h.encode

/-- Modelled from the spec: the bool encoder used for the is_internal
field (section 3: BOOL is one byte, 0x00 false / 0x01 true); the Encode
impl for bool is repository code missing from the src snapshot. -/
def boolEnc (b : Bool) : List Nat := [if b then 1 else 0]

/-- TopicAuthorizedOperations (src/describe_topic_partitions.rs): a u32
bitflags value. -/
structure TopicAuthorizedOperations : Type where
  bits : Nat
  deriving DecidableEq

/-- Default for TopicAuthorizedOperations: from_bits_retain(0x0000_0df8). -/
def TopicAuthorizedOperations.defaultV : TopicAuthorizedOperations := ⟨0x0df8⟩

/-- Encode for TopicAuthorizedOperations: the u32 bits. -/
def TopicAuthorizedOperations.encode (t : TopicAuthorizedOperations) : List Nat :=
  u32be (t.bits % 2 ^ 32)

/-- TopicPartition (src/describe_topic_partitions.rs). -/
structure TopicPartition : Type where
  error_code : Int
  index : Int
  leader_id : Int
  leader_epoch : Int
  repica_nodes : CompactArray RepicaNode
  isr_nodes : CompactArray RepicaNode
  eligible_leader_replicas : CompactArray RepicaNode
  last_known_elr : CompactArray RepicaNode
  offline_replicas : CompactArray RepicaNode
  tag_buffer : TagBuffer
  deriving DecidableEq

/-- Derived Encode for TopicPartition: fields in order. -/
def TopicPartition.encode (p : TopicPartition) : List Nat :=
  i16be p.error_code ++ i32be p.index ++ i32be p.leader_id ++ i32be p.leader_epoch
    ++ p.repica_nodes.encode RepicaNode.encode
    ++ p.isr_nodes.encode RepicaNode.encode
    ++ p.eligible_leader_replicas.encode RepicaNode.encode
    ++ p.last_known_elr.encode RepicaNode.encode
    ++ p.offline_replicas.encode RepicaNode.encode
    ++ p.tag_buffer.encode

/-- TopicResponse (src/describe_topic_partitions.rs). -/
structure TopicResponse : Type where
  error_code : Int
  name : CompactString
  id : Uuid
  is_internal : Bool
  partitions_array : CompactArray TopicPartition
  topic_authorized_operations : TopicAuthorizedOperations
  tag_buffer : TagBuffer
  deriving DecidableEq

/-- Derived Encode for TopicResponse: fields in order. -/
def TopicResponse.encode (t : TopicResponse) : List Nat :=
  i16be t.error_code ++ t.name.encode ++ t.id.encode ++ boolEnc t.is_internal
    ++ t.partitions_array.encode TopicPartition.encode
    ++ t.topic_authorized_operations.encode ++ t.tag_buffer.encode

/-- TopicCursor (src/describe_topic_partitions.rs). -/
structure TopicCursor : Type where
  topic_name : CompactString
  partition_index : Int
  tag_buffer : TagBuffer
  deriving DecidableEq

/-- Derived Encode for TopicCursor. -/
def TopicCursor.encode (c : TopicCursor) : List Nat :=
  c.topic_name.encode ++ i32be c.partition_index ++ c.tag_buffer.encode

/-- OptionTopicCursor: null encodes as the single byte 0xFF (a local
convention of DescribeTopicPartitions). -/
structure OptionTopicCursor : Type where
  inner : Option TopicCursor
  deriving DecidableEq

/-- Encode for OptionTopicCursor. -/
def OptionTopicCursor.encode (c : OptionTopicCursor) : List Nat :=
  match c.inner with
  | some cursor => cursor.encode
  | none => [0xff]

/-- Default for OptionTopicCursor: None. -/
def OptionTopicCursor.defaultV : OptionTopicCursor := ⟨none⟩

/-- TopicRequest (src/describe_topic_partitions.rs). -/
structure TopicRequest : Type where
  name : CompactString
  tag_buffer : TagBuffer
  deriving DecidableEq

/-- DescribeTopicPartitionsRequestBodyV0 (src/describe_topic_partitions.rs). -/
structure DescribeTopicPartitionsRequestBodyV0 : Type where
  topics : CompactArray TopicRequest
  response_partition_limit : Int
  cursor : OptionTopicCursor
  tag_buffer : TagBuffer
  deriving DecidableEq

/-- DescribeTopicPartitionsResponseBodyV0 (src/describe_topic_partitions.rs),
field spelling next_curor kept from the source. -/
structure DescribeTopicPartitionsResponseBodyV0 : Type where
  throttle_time : Int
  topic_array : CompactArray TopicResponse
  next_curor : OptionTopicCursor
  tag_buffer : TagBuffer
  deriving DecidableEq

/-- Derived Encode for DescribeTopicPartitionsResponseBodyV0. -/
def DescribeTopicPartitionsResponseBodyV0.encode
    (b : DescribeTopicPartitionsResponseBodyV0) : List Nat :=
  i32be b.throttle_time ++ b.topic_array.encode TopicResponse.encode
    ++ b.next_curor.encode ++ b.tag_buffer.encode

/-- Modelled from the spec: the ResponseBody enum at the repository head
carries one variant per supported response (section 4.4, bodies are
tagged variants); the enum in src/response_message.rs predates the
DescribeTopicPartitions handler and lacks its variant.  The Fetch
variant is omitted here because no claim concerns it. -/
inductive ResponseBody : Type where
  | ApiVersionsV4 : ApiVersionsResponseBodyV4 → ResponseBody
  | DescribeTopicPartitionsV0 : DescribeTopicPartitionsResponseBodyV0 → ResponseBody
  deriving DecidableEq

/-- Encode for ResponseBody: dispatch to the variant encoder. -/
def ResponseBody.encode : ResponseBody → List Nat
  | .ApiVersionsV4 b => b.encode
  | .DescribeTopicPartitionsV0 b => b.encode

/-- ResponseMessage (src/response_message.rs). -/
structure ResponseMessage : Type where
  message_size : Nat
  header : ResponseHeader
  body : ResponseBody
  deriving DecidableEq

/-- ResponseMessage::new: message_size starts at 0. -/
def ResponseMessage.new (header : ResponseHeader) (body : ResponseBody) : ResponseMessage :=
  ⟨0, header, body⟩

/-- ResponseMessage::as_bytes: with message_size still 0, encode header
and body, set message_size to their total length and emit
size ++ header ++ body; otherwise fall back to the derived encode,
which emits the stored size then header then body. -/
def ResponseMessage.as_bytes (m : ResponseMessage) : List Nat :=
  if m.message_size = 0 then
    u32be (m.header.encode.length + m.body.encode.length)
      ++ m.header.encode ++ m.body.encode
  else
    u32be m.message_size ++ m.header.encode ++ m.body.encode

end Kafka

namespace Kafka

/-- execute_api_verions (src/api_versions.rs), source spelling kept:
version in [min, max] of ApiVersions gives error 0 and the supported
APIs; anything else gives UNSUPPORTED_VERSION_ERROR and an empty list;
the list is sorted; the response always uses a v0 header. -/
def execute_api_verions (header : RequestHeaderV2)
    (_body : ApiVersionsV4ReqeustBody) : ResponseMessage :=
  let request_api_version := header.request_api_version
  let correlation_id := header.correlation_id
  let ec_keys :=
    if API_VERSIONS_API_INFO.min_version ≤ request_api_version
        ∧ request_api_version ≤ API_VERSIONS_API_INFO.max_version then
      ((0 : Int), SUPPORT_APIS)
    else
      (UNSUPPORTED_VERSION_ERROR, [])
  let api_keys := sortApiKeys ec_keys.2
  ResponseMessage.new
    (ResponseHeader.new_v0 correlation_id)
    (ResponseBody.ApiVersionsV4
      ⟨ec_keys.1, ⟨some api_keys⟩, 0, TagBuffer.defaultV⟩)

/-- TopicInfo (src/describe_topic_partitions.rs). -/
structure TopicInfo : Type where
  name : CompactString
  id : Uuid
  is_internal : Bool
  partitions_array : CompactArray TopicPartition
  topic_authorized_operations : TopicAuthorizedOperations
  deriving DecidableEq

/-- UNKNOWN_TOPIC_OR_PARTITION = 3 (src/describe_topic_partitions.rs). -/
def UNKNOWN_TOPIC_OR_PARTITION : Int := 3

/-- The per-topic body of the request loop in
execute_describe_topic_partitions: look the requested name up in the
TOPIC_PARTITIONS index (passed here as a function, modelling the
mutex-guarded global HashMap); present topics echo the stored info with
error 0, absent ones get error 3, the nil UUID, empty partitions and
the default authorized operations. -/
def lookupTopicResponse (idx : CompactString → Option TopicInfo)
    (request_topic : TopicRequest) : TopicResponse :=
  match idx request_topic.name with
  | some topic_info =>
    ⟨0, topic_info.name, topic_info.id, topic_info.is_internal,
      topic_info.partitions_array, topic_info.topic_authorized_operations,
      TagBuffer.defaultV⟩
  | none =>
    ⟨UNKNOWN_TOPIC_OR_PARTITION, request_topic.name, Uuid.nil, false,
      CompactArray.empty, TopicAuthorizedOperations.defaultV, TagBuffer.defaultV⟩

/-- execute_describe_topic_partitions (src/describe_topic_partitions.rs):
a version outside [0, 0] yields an ApiVersions-shaped error response
with a v0 header; otherwise each requested topic (none when the compact
array is null) is answered via the index lookup, with throttle 0, a
null next cursor and a v1 header. -/
def execute_describe_topic_partitions (idx : CompactString → Option TopicInfo)
    (header : RequestHeaderV2)
    (body : DescribeTopicPartitionsRequestBodyV0) : ResponseMessage :=
  let request_api_version := header.request_api_version
  let correlation_id := header.correlation_id
  if request_api_version < DESCRIBE_TOPIC_PARTITIONS_API_INFO.min_version
      ∨ request_api_version > DESCRIBE_TOPIC_PARTITIONS_API_INFO.max_version then
    ResponseMessage.new
      (ResponseHeader.new_v0 correlation_id)
      (ResponseBody.ApiVersionsV4
        ⟨UNSUPPORTED_VERSION_ERROR, ⟨some []⟩, 0, TagBuffer.defaultV⟩)
  else
    let describe_topics :=
      match body.topics.inner with
      | some topics => topics.map (lookupTopicResponse idx)
      | none => []
    ResponseMessage.new
      (ResponseHeader.new_v1 correlation_id)
      (ResponseBody.DescribeTopicPartitionsV0
        ⟨0, ⟨some describe_topics⟩, OptionTopicCursor.defaultV, TagBuffer.defaultV⟩)

end Kafka

namespace Kafka

/-- Running a bind after a successful step. -/
theorem bind_ok {α β : Type} (m : DecM α) (f : α → DecM β) (buf : List Nat)
    (pos : Nat) (a : α) (p : Nat) (h : m buf pos = .ok a p) :
    (m >>= f) buf pos = f a buf p := by
  have hdef : (m >>= f) buf pos = match m buf pos with
    | .ok a p => f a buf p
    | .err e => .err e
    | .panicked => .panicked := rfl
  rw [hdef, h]

/-- Running a bind after a failing step. -/
theorem bind_err {α β : Type} (m : DecM α) (f : α → DecM β) (buf : List Nat)
    (pos : Nat) (e : DecErr) (h : m buf pos = .err e) :
    (m >>= f) buf pos = .err e := by
  have hdef : (m >>= f) buf pos = match m buf pos with
    | .ok a p => f a buf p
    | .err e => .err e
    | .panicked => .panicked := rfl
  rw [hdef, h]

/-- Running pure. -/
theorem pure_at {α : Type} (a : α) (buf : List Nat) (pos : Nat) :
    (pure a : DecM α) buf pos = .ok a pos := rfl

/-- decI8 at a position with at least one byte left. -/
theorem decI8_at (buf : List Nat) (pos : Nat) (h : pos < buf.length) :
    decI8 buf pos = .ok (toSigned 8 (buf.getD pos 0)) (pos + 1) := by
  unfold decI8 remaining
  rw [if_neg (by omega)]

/-- readExact at a position with enough bytes left. -/
theorem readExact_at (n : Nat) (buf : List Nat) (pos : Nat) (h : n ≤ buf.length - pos) :
    readExact n buf pos = .ok ((buf.drop pos).take n) (pos + n) := by
  unfold readExact remaining
  rw [if_neg (by omega)]

/-- getD across an append, at an offset past the first part. -/
theorem getD_append_ge (l1 l2 : List Nat) (i : Nat) :
    (l1 ++ l2).getD (l1.length + i) 0 = l2.getD i 0 := by
  simp [List.getD_eq_getElem?_getD,
    List.getElem?_append_right (by omega : l1.length ≤ l1.length + i)]

end Kafka

namespace Kafka

/-- C1: For every ApiVersions request, whether the requested version is
in range or not, the response uses a version-0 response header: after
the message_size prefix the header consists of the request's
correlation_id alone, with no tag buffer following it. -/
theorem apiVersions_uses_v0_header (header : RequestHeaderV2)
    (body : ApiVersionsV4ReqeustBody) :
    (execute_api_verions header body).header = ResponseHeader.new_v0 header.correlation_id
    ∧ (execute_api_verions header body).as_bytes
      = u32be (4 + ((execute_api_verions header body).body.encode).length)
        ++ i32be header.correlation_id
        ++ (execute_api_verions header body).body.encode :=
  ⟨rfl, rfl⟩

/-- C2: For every ApiVersions request: if the header's
request_api_version is outside [0,4], the handler returns error_code 35
with an empty api_keys array and throttle_time_ms 0; otherwise it
returns error_code 0 and api_keys is exactly the three entries
(1,0,16), (18,0,4), (75,0,0), sorted ascending by api_key. -/
theorem apiVersions_body_spec (header : RequestHeaderV2)
    (body : ApiVersionsV4ReqeustBody) :
    (execute_api_verions header body).body
      = .ApiVersionsV4
          ⟨if 0 ≤ header.request_api_version ∧ header.request_api_version ≤ 4 then 0
              else 35,
            ⟨some (if 0 ≤ header.request_api_version ∧ header.request_api_version ≤ 4 then
                [⟨1, 0, 16, TagBuffer.defaultV⟩, ⟨18, 0, 4, TagBuffer.defaultV⟩,
                 ⟨75, 0, 0, TagBuffer.defaultV⟩]
              else [])⟩,
            0, TagBuffer.defaultV⟩ := by
  unfold execute_api_verions
  dsimp only
  by_cases h : 0 ≤ header.request_api_version ∧ header.request_api_version ≤ 4
  · rw [if_pos (show API_VERSIONS_API_INFO.min_version ≤ header.request_api_version
        ∧ header.request_api_version ≤ API_VERSIONS_API_INFO.max_version from ⟨h.1, h.2⟩)]
    rw [if_pos h, if_pos h]
    have hs : sortApiKeys SUPPORT_APIS
        = [⟨1, 0, 16, TagBuffer.defaultV⟩, ⟨18, 0, 4, TagBuffer.defaultV⟩,
           ⟨75, 0, 0, TagBuffer.defaultV⟩] := by decide
    simp [ResponseMessage.new, hs]
  · rw [if_neg (show ¬ (API_VERSIONS_API_INFO.min_version ≤ header.request_api_version
        ∧ header.request_api_version ≤ API_VERSIONS_API_INFO.max_version) from h)]
    rw [if_neg h, if_neg h]
    simp [ResponseMessage.new, sortApiKeys, UNSUPPORTED_VERSION_ERROR]

end Kafka

namespace Kafka

/-- C5: Array<T>::encode maps the null array to FF FF FF FF and the
empty array to 00 00 00 00; CompactArray<T>::encode maps null to 00 and
empty to 01; and decoding each of these four encodings returns the
original value (consuming exactly the prefix), so the null/empty
distinction is preserved across a round trip.  Stated for every element
type and element codec: none of these four values contains an element,
so neither encoder nor decoder ever touches the element codec. -/
theorem array_null_empty_roundtrip {α : Type} (encT : α → List Nat) (decT : DecM α) :
    Array.encode encT (⟨none⟩ : Array α) = some [0xff, 0xff, 0xff, 0xff]
    ∧ Array.encode encT (⟨some []⟩ : Array α) = some [0x00, 0x00, 0x00, 0x00]
    ∧ CompactArray.encode encT (⟨none⟩ : CompactArray α) = [0x00]
    ∧ CompactArray.encode encT (⟨some []⟩ : CompactArray α) = [0x01]
    ∧ Array.decode decT [0xff, 0xff, 0xff, 0xff] 0 = .ok (⟨none⟩ : Array α) 4
    ∧ Array.decode decT [0x00, 0x00, 0x00, 0x00] 0 = .ok (⟨some []⟩ : Array α) 4
    ∧ CompactArray.decode decT [0x00] 0 = .ok (⟨none⟩ : CompactArray α) 1
    ∧ CompactArray.decode decT [0x01] 0 = .ok (⟨some []⟩ : CompactArray α) 1 := by
  refine ⟨rfl, ?_, rfl, ?_, ?_, ?_, ?_, ?_⟩
  · unfold Array.encode
    dsimp only
    rw [if_neg (by norm_num)]
    norm_num [i32be, toU, u32be]
  · simp [CompactArray.encode, VarInt.from_u64, fromU64Bytes]
  · unfold Array.decode
    rw [bind_ok _ _ _ _ (-1) 4 (by decide)]
    rw [if_neg (by decide : ¬ (-1 : Int) ≥ 0)]
    exact pure_at _ _ _
  · unfold Array.decode
    rw [bind_ok _ _ _ _ 0 4 (by decide)]
    rw [if_pos (by decide : (0 : Int) ≥ 0)]
    rw [show Int.toNat 0 = 0 from rfl]
    rw [show decodeN decT 0 = (pure [] : DecM (List α)) from rfl]
    rw [bind_ok _ _ _ _ [] 4 (pure_at [] _ _)]
    exact pure_at _ _ _
  · unfold CompactArray.decode
    rw [bind_ok _ _ _ _ ⟨[0]⟩ 1 (by decide)]
    dsimp only
    rw [show VarInt.as_u64 ⟨[0]⟩ = 0 from by decide]
    rw [if_neg (by decide : ¬ (0 : Nat) > 0)]
    exact pure_at _ _ _
  · unfold CompactArray.decode
    rw [bind_ok _ _ _ _ ⟨[1]⟩ 1 (by decide)]
    dsimp only
    rw [show VarInt.as_u64 ⟨[1]⟩ = 1 from by decide]
    rw [if_pos (by decide : (1 : Nat) > 0)]
    rw [show (1 : Nat) - 1 = 0 from rfl]
    rw [show decodeN decT 0 = (pure [] : DecM (List α)) from rfl]
    rw [bind_ok _ _ _ _ [] 1 (pure_at [] _ _)]
    exact pure_at _ _ _

/-- C6: zig-zag decode inverts zig-zag encode on every i64 (hence
from_i64 then as_i64 is the identity), VarInt::from_u64(150) encodes to
bytes 96 01, VarInt::from_i64(-1) encodes to the single byte 01, and
decoding bytes 82 01 as an unsigned varint yields 130. -/
theorem varint_zigzag_spec :
    (∀ n : Int, -2 ^ 63 ≤ n → n < 2 ^ 63 →
      zigzag_decode_64bit (zigzag_encode_64bit n) = n ∧ (VarInt.from_i64 n).as_i64 = n)
    ∧ (VarInt.from_u64 150).bytes = [0x96, 0x01]
    ∧ (VarInt.from_i64 (-1)).bytes = [0x01]
    ∧ VarInt.decode [0x82, 0x01] 0 = .ok ⟨[0x82, 0x01]⟩ 2
    ∧ (VarInt.mk [0x82, 0x01]).as_u64 = 130 := by
  refine ⟨fun n h1 h2 => ⟨zigzag_roundtrip n h1 h2, from_i64_as_i64 n h1 h2⟩, ?_, ?_, ?_, ?_⟩
  · simp [VarInt.from_u64, fromU64Bytes]
    decide
  · simp [VarInt.from_i64, VarInt.from_u64, fromU64Bytes, zigzag_encode_64bit, toU]
  · decide
  · decide

/-- C6 witness: the universally quantified part instantiated at -37. -/
theorem varint_zigzag_spec_witness :
    (-2 ^ 63 ≤ (-37 : Int)) ∧ ((-37 : Int) < 2 ^ 63)
    ∧ (zigzag_decode_64bit (zigzag_encode_64bit (-37)) = -37
      ∧ (VarInt.from_i64 (-37)).as_i64 = -37) :=
  ⟨by decide, by decide, varint_zigzag_spec.1 (-37) (by decide) (by decide)⟩

/-- C7 counterexample: VarInt::decode on 80 80 80 80 80 01 consumes six
bytes, more than five, and the decoded value is 2^35, outside the
32-bit range: the decoder imposes neither bound. -/
theorem varIntDecode_no_bounds_cex :
    VarInt.decode [0x80, 0x80, 0x80, 0x80, 0x80, 0x01] 0
      = .ok ⟨[0x80, 0x80, 0x80, 0x80, 0x80, 0x01]⟩ 6
    ∧ ¬ (6 - 0 ≤ 5)
    ∧ (VarInt.mk [0x80, 0x80, 0x80, 0x80, 0x80, 0x01]).as_u64 = 2 ^ 35
    ∧ ¬ ((2 : Nat) ^ 35 < 2 ^ 32) := by
  refine ⟨by decide, by decide, by decide, by decide⟩

/-- C7 as amended: VarInt::decode reads continuation bytes (high bit
set) until the first byte with the high bit clear, with no five-byte
cap and no 32-bit range check: on a buffer made of k continuation bytes
followed by a terminating byte it consumes exactly k + 1 bytes and
returns precisely those bytes, whatever follows. -/
theorem varIntDecode_consumes_exactly (c : List Nat) (t : Nat) (rest : List Nat)
    (hc : ∀ b ∈ c, b >>> 7 = 1) (ht : ¬ t >>> 7 = 1) :
    VarInt.decode (c ++ t :: rest) 0 = .ok ⟨c ++ [t]⟩ (c.length + 1) := by
  have h := varIntDecode_spec (c ++ t :: rest) 0 c t rest (by simp) hc ht
  simpa using h

/-- C7 witness: the amended statement at a two-byte varint. -/
theorem varIntDecode_consumes_exactly_witness :
    (∀ b ∈ [0x80], b >>> 7 = 1) ∧ ¬ (1 : Nat) >>> 7 = 1
    ∧ VarInt.decode ([0x80] ++ 1 :: [9]) 0 = .ok ⟨[0x80] ++ [1]⟩ ([0x80].length + 1) :=
  ⟨by decide, by decide, varIntDecode_consumes_exactly [0x80] 1 [9] (by decide) (by decide)⟩

end Kafka

namespace Kafka

/-- C4 counterexample: on a zero length prefix CompactString::decode
does not return a decode-error value; the assert! aborts (panics). -/
theorem compactString_zero_prefix_cex :
    CompactString.decode [0x00] 0 = .panicked
    ∧ ¬ CompactString.decode [0x00] 0 = .err .incomplete
    ∧ ¬ CompactString.decode [0x00] 0 = .err .other := by
  decide

/-- C4 as amended: CompactString::decode rejects a zero length prefix by
panicking (assert!), rather than returning a decode-error value; a
prefix of 1 yields the valid empty string; and in general a prefix
n >= 1 reads exactly n - 1 content bytes after the prefix. -/
theorem compactString_decode_spec :
    CompactString.decode [0x00] 0 = .panicked
    ∧ CompactString.decode [0x01] 0 = .ok ⟨[]⟩ 1
    ∧ ∀ (n : Nat) (rest : List Nat), 1 ≤ n → n < 2 ^ 64 → n - 1 ≤ rest.length →
        isValidUtf8 (rest.take (n - 1)) = true →
        CompactString.decode ((VarInt.from_u64 n).bytes ++ rest) 0
          = .ok ⟨rest.take (n - 1)⟩ ((VarInt.from_u64 n).bytes.length + (n - 1)) := by
  refine ⟨by decide, by decide, ?_⟩
  intro n rest h1 h64 hlen hutf
  unfold CompactString.decode
  have hv : VarInt.decode ((VarInt.from_u64 n).bytes ++ rest) 0
      = .ok ⟨fromU64Bytes n⟩ (0 + (fromU64Bytes n).length) :=
    varIntDecode_fromU64 n _ 0 rest (by simp [VarInt.from_u64])
  rw [bind_ok _ _ _ _ _ _ hv]
  rw [as_u64_from_u64 n h64]
  rw [if_pos (show n > 0 by omega)]
  have hdrop : ((VarInt.from_u64 n).bytes ++ rest).drop (0 + (fromU64Bytes n).length) = rest := by
    simp [VarInt.from_u64]
  have hre : readExact (n - 1) ((VarInt.from_u64 n).bytes ++ rest) (0 + (fromU64Bytes n).length)
      = .ok (rest.take (n - 1)) ((0 + (fromU64Bytes n).length) + (n - 1)) := by
    rw [readExact_at _ _ _ (by simp [VarInt.from_u64]; omega), hdrop]
  rw [bind_ok _ _ _ _ _ _ hre]
  have hutf8 : fromUtf8 (rest.take (n - 1)) ((VarInt.from_u64 n).bytes ++ rest)
      ((0 + (fromU64Bytes n).length) + (n - 1))
      = .ok (rest.take (n - 1)) ((0 + (fromU64Bytes n).length) + (n - 1)) := by
    unfold fromUtf8
    rw [hutf]
    rfl
  rw [bind_ok _ _ _ _ _ _ hutf8]
  rw [pure_at]
  simp [VarInt.from_u64]

/-- C4 witness: the general clause at prefix 3 with content "ab". -/
theorem compactString_decode_spec_witness :
    (1 ≤ 3) ∧ ((3 : Nat) < 2 ^ 64) ∧ ((3 : Nat) - 1 ≤ [97, 98].length)
    ∧ isValidUtf8 ([97, 98].take (3 - 1)) = true
    ∧ CompactString.decode ((VarInt.from_u64 3).bytes ++ [97, 98]) 0
      = .ok ⟨[97, 98].take (3 - 1)⟩ ((VarInt.from_u64 3).bytes.length + (3 - 1)) :=
  ⟨by decide, by decide, by decide, by decide,
    compactString_decode_spec.2.2 3 [97, 98] (by decide) (by decide) (by decide) (by decide)⟩

end Kafka

namespace Kafka

/-- Runs of the ASCII byte 97 are valid UTF-8. -/
theorem utf8_replicate97 (k : Nat) : isValidUtf8 (List.replicate k 97) = true := by
  unfold isValidUtf8
  induction k with
  | zero => decide
  | succ k ih =>
    rw [List.replicate_succ]
    rw [utf8Fold]
    norm_num
    exact ih

/-- C10: HeaderClientId::decode reads the client_id length prefix as an
unsigned 16-bit integer, so a prefix of 0xFFFF (Kafka's NULLABLE_STRING
null sentinel) is treated as length 65535: the decoder signals
incomplete until that many further bytes are available, and once they
are it returns those 65535 bytes as an actual (never null) client id —
the result type has no null at all. -/
theorem clientId_ffff_is_length (rest : List Nat) :
    (rest.length < 65535 →
      HeaderClientId.decode (0xFF :: 0xFF :: rest) 0 = .err .incomplete)
    ∧ (65535 ≤ rest.length → isValidUtf8 (rest.take 65535) = true →
      HeaderClientId.decode (0xFF :: 0xFF :: rest) 0
        = .ok ⟨rest.take 65535⟩ (2 + 65535)) := by
  have hu16 : decU16 (0xFF :: 0xFF :: rest) 0 = .ok 65535 2 := by
    unfold decU16 remaining
    rw [if_neg (by simp)]
    norm_num
  constructor
  · intro h
    unfold HeaderClientId.decode
    rw [bind_ok _ _ _ _ _ _ hu16]
    have hre : readExact 65535 (0xFF :: 0xFF :: rest) 2 = .err .incomplete := by
      unfold readExact remaining
      rw [if_pos (by simp; omega)]
    rw [bind_err _ _ _ _ _ hre]
  · intro h hutf
    unfold HeaderClientId.decode
    rw [bind_ok _ _ _ _ _ _ hu16]
    have hre : readExact 65535 (0xFF :: 0xFF :: rest) 2 = .ok (rest.take 65535) (2 + 65535) := by
      rw [readExact_at _ _ _ (by simp; omega)]
      rfl
    rw [bind_ok _ _ _ _ _ _ hre]
    have hutf8 : fromUtf8 (rest.take 65535) (0xFF :: 0xFF :: rest) (2 + 65535)
        = .ok (rest.take 65535) (2 + 65535) := by
      unfold fromUtf8
      rw [hutf]
      rfl
    rw [bind_ok _ _ _ _ _ _ hutf8]
    rfl

/-- C10 witness: both clauses at concrete buffers (no bytes after the
0xFFFF prefix; exactly 65535 ASCII bytes after it). -/
theorem clientId_ffff_is_length_witness :
    (([] : List Nat).length < 65535)
    ∧ HeaderClientId.decode (0xFF :: 0xFF :: ([] : List Nat)) 0 = .err .incomplete
    ∧ (65535 ≤ (List.replicate 65535 97).length)
    ∧ isValidUtf8 ((List.replicate 65535 97).take 65535) = true
    ∧ HeaderClientId.decode (0xFF :: 0xFF :: List.replicate 65535 97) 0
      = .ok ⟨(List.replicate 65535 97).take 65535⟩ (2 + 65535) := by
  have h1 : (65535 : Nat) ≤ (List.replicate 65535 97).length := by
    rw [List.length_replicate]
  have h2 : isValidUtf8 ((List.replicate 65535 97).take (65535 : Nat)) = true := by
    rw [List.take_replicate]
    exact utf8_replicate97 _
  exact ⟨by decide, (clientId_ffff_is_length []).1 (by decide), h1, h2,
    (clientId_ffff_is_length _).2 h1 h2⟩

end Kafka

namespace Kafka

/-- C8: Connection::parse_request leaves the buffer unchanged when
RequestMessage::decode signals incomplete, and on a successful decode
advances the buffer by exactly the number of bytes the decoder's cursor
consumed, leaving the bytes of the next request untouched. -/
theorem parse_request_buffer_discipline (buffer : List Nat) :
    (RequestMessage.decode buffer 0 = .err .incomplete →
      Connection.parse_request buffer = (.needMore, buffer))
    ∧ (∀ (r : RequestMessage) (pos : Nat), RequestMessage.decode buffer 0 = .ok r pos →
      Connection.parse_request buffer = (.parsed r, buffer.drop pos)) := by
  constructor
  · intro h
    unfold Connection.parse_request
    rw [h]
  · intro r pos h
    unfold Connection.parse_request
    rw [h]

/-- C8 witness: an empty buffer is incomplete and left alone; a full
18-byte ApiVersions request is consumed exactly, leaving the trailing
bytes of the next request in place. -/
theorem parse_request_buffer_discipline_witness :
    RequestMessage.decode [] 0 = .err .incomplete
    ∧ Connection.parse_request [] = (.needMore, [])
    ∧ RequestMessage.decode
        [0, 0, 0, 14, 0, 18, 0, 4, 0x11, 0x22, 0x33, 0x44, 0, 0, 0, 1, 1, 0, 0xAB] 0
      = .ok ⟨14, .RequestHeaderV2 ⟨18, 4, 0x11223344, ⟨[]⟩, ⟨⟨none⟩⟩⟩,
          .ApiVersionsV4 ⟨[], [], ⟨⟨none⟩⟩⟩⟩ 18
    ∧ Connection.parse_request
        [0, 0, 0, 14, 0, 18, 0, 4, 0x11, 0x22, 0x33, 0x44, 0, 0, 0, 1, 1, 0, 0xAB]
      = (.parsed ⟨14, .RequestHeaderV2 ⟨18, 4, 0x11223344, ⟨[]⟩, ⟨⟨none⟩⟩⟩,
          .ApiVersionsV4 ⟨[], [], ⟨⟨none⟩⟩⟩⟩, [0xAB]) := by
  have h1 : RequestMessage.decode [] 0 = .err .incomplete := by decide
  have h2 : RequestMessage.decode
      [0, 0, 0, 14, 0, 18, 0, 4, 0x11, 0x22, 0x33, 0x44, 0, 0, 0, 1, 1, 0, 0xAB] 0
      = .ok ⟨14, .RequestHeaderV2 ⟨18, 4, 0x11223344, ⟨[]⟩, ⟨⟨none⟩⟩⟩,
          .ApiVersionsV4 ⟨[], [], ⟨⟨none⟩⟩⟩⟩ 18 := by decide
  refine ⟨h1, (parse_request_buffer_discipline []).1 h1, h2, ?_⟩
  have h3 := (parse_request_buffer_discipline _).2 _ _ h2
  rw [h3]
  rfl

end Kafka

namespace Kafka

/-- C9: For every DescribeTopicPartitions v0 request, the response uses
a version-1 response header, a null next_cursor and throttle 0, each
requested topic is answered by the index lookup, and every topic absent
from the index gets a topic entry with error_code 3 that echoes the
requested name and carries the nil UUID, an empty (non-null) partitions
array and authorized_operations 0x0DF8. -/
theorem describeTopicPartitions_unknown_topic (idx : CompactString → Option TopicInfo)
    (header : RequestHeaderV2) (body : DescribeTopicPartitionsRequestBodyV0)
    (t : TopicRequest)
    (hv : header.request_api_version = 0)
    (ht : idx t.name = none) :
    (execute_describe_topic_partitions idx header body).header
      = ResponseHeader.new_v1 header.correlation_id
    ∧ (execute_describe_topic_partitions idx header body).body
      = .DescribeTopicPartitionsV0
          ⟨0, ⟨some ((body.topics.inner.getD []).map (lookupTopicResponse idx))⟩,
            OptionTopicCursor.defaultV, TagBuffer.defaultV⟩
    ∧ lookupTopicResponse idx t
      = ⟨3, t.name, Uuid.nil, false, ⟨some []⟩, ⟨0x0df8⟩, TagBuffer.defaultV⟩ := by
  unfold execute_describe_topic_partitions
  rw [hv]
  rw [if_neg (by norm_num [DESCRIBE_TOPIC_PARTITIONS_API_INFO])]
  refine ⟨rfl, ?_, ?_⟩
  · rcases hb : body.topics.inner with _ | topics
    · simp [hb, ResponseMessage.new]
    · simp [hb, ResponseMessage.new]
  · unfold lookupTopicResponse
    rw [ht]
    rfl

/-- C9 witness: an empty index and a request for topic "foo"
(bytes 66 6F 6F) at version 0. -/
theorem describeTopicPartitions_unknown_topic_witness :
    ((⟨75, 0, 7, ⟨[]⟩, ⟨⟨none⟩⟩⟩ : RequestHeaderV2).request_api_version = 0)
    ∧ ((fun _ => none : CompactString → Option TopicInfo) (⟨[0x66, 0x6F, 0x6F]⟩ : CompactString) = none)
    ∧ ((execute_describe_topic_partitions (fun _ => none) ⟨75, 0, 7, ⟨[]⟩, ⟨⟨none⟩⟩⟩
          ⟨⟨some [⟨⟨[0x66, 0x6F, 0x6F]⟩, ⟨⟨none⟩⟩⟩]⟩, 1, ⟨none⟩, ⟨⟨none⟩⟩⟩).header
        = ResponseHeader.new_v1 7
      ∧ (execute_describe_topic_partitions (fun _ => none) ⟨75, 0, 7, ⟨[]⟩, ⟨⟨none⟩⟩⟩
          ⟨⟨some [⟨⟨[0x66, 0x6F, 0x6F]⟩, ⟨⟨none⟩⟩⟩]⟩, 1, ⟨none⟩, ⟨⟨none⟩⟩⟩).body
        = .DescribeTopicPartitionsV0
            ⟨0, ⟨some (((⟨⟨some [⟨⟨[0x66, 0x6F, 0x6F]⟩, ⟨⟨none⟩⟩⟩]⟩, 1, ⟨none⟩, ⟨⟨none⟩⟩⟩
                  : DescribeTopicPartitionsRequestBodyV0).topics.inner.getD []).map
                (lookupTopicResponse (fun _ => none)))⟩,
              OptionTopicCursor.defaultV, TagBuffer.defaultV⟩
      ∧ lookupTopicResponse (fun _ => none) ⟨⟨[0x66, 0x6F, 0x6F]⟩, ⟨⟨none⟩⟩⟩
        = ⟨3, ⟨[0x66, 0x6F, 0x6F]⟩, Uuid.nil, false, ⟨some []⟩, ⟨0x0df8⟩, TagBuffer.defaultV⟩) :=
  ⟨rfl, rfl,
    describeTopicPartitions_unknown_topic (fun _ => none) ⟨75, 0, 7, ⟨[]⟩, ⟨⟨none⟩⟩⟩
      ⟨⟨some [⟨⟨[0x66, 0x6F, 0x6F]⟩, ⟨⟨none⟩⟩⟩]⟩, 1, ⟨none⟩, ⟨⟨none⟩⟩⟩
      ⟨⟨[0x66, 0x6F, 0x6F]⟩, ⟨⟨none⟩⟩⟩ rfl rfl⟩

end Kafka

namespace Kafka

/-- C3: For every byte sequence beginning with a signed-varint length L
followed by at least L bytes (and at least the two lookahead bytes)
whose second byte — the record_type, read as an i8 — is none of 0x02,
0x03, 0x0C, RecordValue::decode consumes the length prefix plus exactly
L bytes and returns the Unknown variant holding those L bytes, and
encoding that value re-emits the length prefix followed by the stored
bytes, reproducing the consumed input byte-for-byte. -/
theorem recordValue_unknown_roundtrip (L : Nat) (tail : List Nat)
    (hL63 : L < 2 ^ 63)
    (hlen2 : 2 ≤ tail.length)
    (hlenL : L ≤ tail.length)
    (ht2 : toSigned 8 (tail.getD 1 0) ≠ 2)
    (ht3 : toSigned 8 (tail.getD 1 0) ≠ 3)
    (ht12 : toSigned 8 (tail.getD 1 0) ≠ 12) :
    RecordValue.decode ((VarInt.from_i64 (L : Int)).bytes ++ tail) 0
      = .ok (.Unknown (tail.take L)) ((VarInt.from_i64 (L : Int)).bytes.length + L)
    ∧ RecordValue.encode (.Unknown (tail.take L))
      = (VarInt.from_i64 (L : Int)).bytes ++ tail.take L := by
  constructor
  · have hbeq : (VarInt.from_i64 (L : Int)).bytes
        = fromU64Bytes (zigzag_encode_64bit (L : Int)) := rfl
    set z := zigzag_encode_64bit (L : Int) with hz
    set pre := fromU64Bytes z with hpre
    set buf := (VarInt.from_i64 (L : Int)).bytes ++ tail with hbuf
    have hbuf2 : buf = pre ++ tail := by rw [hbuf, hbeq]
    have hlenbuf : buf.length = pre.length + tail.length := by
      rw [hbuf2]; simp
    have hstep1 : VarInt.decode buf 0 = .ok ⟨pre⟩ (0 + pre.length) :=
      varIntDecode_fromU64 z buf 0 tail (by rw [hbuf2]; simp)
    have hasL : VarInt.as_i64 ⟨pre⟩ = (L : Int) :=
      from_i64_as_i64 (L : Int) (by omega) (by exact_mod_cast hL63)
    have hg0 : buf.getD (pre.length + 0) 0 = tail.getD 0 0 := by
      rw [hbuf2]; exact getD_append_ge pre tail 0
    have hg1 : buf.getD (pre.length + 1) 0 = tail.getD 1 0 := by
      rw [hbuf2]; exact getD_append_ge pre tail 1
    have hi1 : decI8 buf (0 + pre.length)
        = .ok (toSigned 8 (tail.getD 0 0)) (0 + pre.length + 1) := by
      rw [decI8_at buf (0 + pre.length) (by omega)]
      rw [show (0 + pre.length) = pre.length + 0 from by omega, hg0]
    have hi2 : decI8 buf (0 + pre.length + 1)
        = .ok (toSigned 8 (tail.getD 1 0)) (0 + pre.length + 1 + 1) := by
      rw [decI8_at buf (0 + pre.length + 1) (by omega)]
      rw [show (0 + pre.length + 1) = pre.length + 1 from by omega, hg1]
    have hpkr : parse_known_record (toSigned 8 (tail.getD 1 0)) buf
        (0 + pre.length + 1 + 1 - 2) = .err .other := by
      unfold parse_known_record
      rw [if_neg (show ¬ toSigned 8 (tail.getD 1 0) = RecordType.TOPIC_RECORD from ht2)]
      rw [if_neg (show ¬ toSigned 8 (tail.getD 1 0) = RecordType.PARITION_RECORD from ht3)]
      rw [if_neg
        (show ¬ toSigned 8 (tail.getD 1 0) = RecordType.FEATURE_LEVEL_RECORD from ht12)]
    have hre : readExact (VarInt.as_i64 ⟨pre⟩).toNat buf (0 + pre.length + 1 + 1 - 2)
        = .ok (tail.take L) (0 + pre.length + 1 + 1 - 2 + L) := by
      rw [hasL]
      rw [show ((L : Int)).toNat = L from by simp]
      rw [show (0 + pre.length + 1 + 1 - 2) = pre.length from by omega]
      rw [readExact_at L buf pre.length (by omega)]
      rw [hbuf2, List.drop_left]
    unfold RecordValue.decode
    rw [hstep1]
    dsimp only
    rw [hi1]
    dsimp only
    rw [hi2]
    dsimp only
    rw [hpkr]
    dsimp only
    rw [if_neg (show ¬ VarInt.as_i64 ⟨pre⟩ < 0 from by rw [hasL]; omega)]
    rw [hre]
    rw [show (0 + pre.length + 1 + 1 - 2 + L) = pre.length + L from by omega]
    rw [hbeq]
  · show (VarInt.from_i64 ((tail.take L).length : Int)).bytes ++ tail.take L = _
    rw [List.length_take, Nat.min_eq_left hlenL]

/-- C3 witness: length prefix 3 (zig-zag byte 06) followed by four bytes
whose record_type byte is 0x63, an unknown type. -/
theorem recordValue_unknown_roundtrip_witness :
    ((3 : Nat) < 2 ^ 63) ∧ (2 ≤ [0, 99, 7, 42].length) ∧ (3 ≤ [0, 99, 7, 42].length)
    ∧ (toSigned 8 ([0, 99, 7, 42].getD 1 0) ≠ 2)
    ∧ (toSigned 8 ([0, 99, 7, 42].getD 1 0) ≠ 3)
    ∧ (toSigned 8 ([0, 99, 7, 42].getD 1 0) ≠ 12)
    ∧ (RecordValue.decode ((VarInt.from_i64 ((3 : Nat) : Int)).bytes ++ [0, 99, 7, 42]) 0
        = .ok (.Unknown ([0, 99, 7, 42].take 3))
            ((VarInt.from_i64 ((3 : Nat) : Int)).bytes.length + 3)
      ∧ RecordValue.encode (.Unknown ([0, 99, 7, 42].take 3))
        = (VarInt.from_i64 ((3 : Nat) : Int)).bytes ++ [0, 99, 7, 42].take 3) :=
  ⟨by decide, by decide, by decide, by decide, by decide, by decide,
    recordValue_unknown_roundtrip 3 [0, 99, 7, 42] (by decide) (by decide) (by decide)
      (by decide) (by decide) (by decide)⟩

end Kafka
